import Mathlib

/-!
Shallow embedding of `mhz14a.cpp`, a serial reader for the MH-Z14A CO2
sensor.  The receive state machine `rx_packet`, the outbound frames
(`request_co2_level`, `abc_off`, `set_range`), the steady-state polling
loop and the startup handshake of `main` are translated into executable
Lean definitions, and the specification's claims are settled as theorems
about them.
-/

/-- The `PacketType` enum of the source
(`typedef enum {None,CO2Level,ABCOff,SetRange,Other} PacketType`). -/
inductive PacketType where
  | None
  | CO2Level
  | ABCOff
  | SetRange
  | Other
deriving DecidableEq, Repr

/-- The mutable statics of `rx_packet` together with the global
`co2_level`.  `rxstate`, `checksum` (an `unsigned char`, kept reduced
mod 256), `byte3` and `packet` are the four statics; `co2_level` is the
`int` global initialised to `-1`. -/
structure RxState where
  rxstate : Nat
  checksum : Nat
  byte3 : Nat
  packet : PacketType
  co2_level : Int
deriving DecidableEq, Repr

/-- The classification switch in state 2 of `rx_packet`
(case 0x86 / 0x79 / 0x99 / default). -/
def classify (c : Nat) : PacketType :=
  if c = 0x86 then .CO2Level
  else if c = 0x79 then .ABCOff
  else if c = 0x99 then .SetRange
  else .Other

/-- One call of `rx_packet` that actually received the byte `c`: fold the
byte into the running checksum, dispatch on `rxstate`, and return the new
state together with the returned `PacketType` (`.None` when no complete
valid packet finished on this byte).  Translated case-by-case from the
`switch(rxstate)` of the source; the stacked case labels 4..8 all end in
`rxstate++`, with state 4 first conditionally updating `co2_level`. -/
def rx_packet (s : RxState) (c : Nat) : RxState × PacketType :=
  let cs := (s.checksum + c) % 256
  if s.rxstate = 1 then
    -- Waiting for 0xff start of packet
    if c = 0xff then ({ s with rxstate := 2, checksum := c }, .None)
    else ({ s with checksum := cs }, .None)
  else if s.rxstate = 2 then
    -- Command byte
    ({ s with rxstate := 3, checksum := cs, packet := classify c }, .None)
  else if s.rxstate = 3 then
    ({ s with rxstate := 4, checksum := cs, byte3 := c }, .None)
  else if s.rxstate = 4 then
    let co2 : Int :=
      if s.packet = .CO2Level then ((256 * s.byte3 + c : Nat) : Int) else s.co2_level
    ({ s with rxstate := 5, checksum := cs, co2_level := co2 }, .None)
  else if s.rxstate = 5 then ({ s with rxstate := 6, checksum := cs }, .None)
  else if s.rxstate = 6 then ({ s with rxstate := 7, checksum := cs }, .None)
  else if s.rxstate = 7 then ({ s with rxstate := 8, checksum := cs }, .None)
  else if s.rxstate = 8 then ({ s with rxstate := 9, checksum := cs }, .None)
  else if s.rxstate = 9 then
    -- Checksum byte
    ({ s with rxstate := 1, checksum := cs },
     if cs = 0xff then s.packet else .None)
  else ({ s with checksum := cs }, .None)

/-- The state of the decoder at program start: `rxstate = 1`, statics
zero-initialised, `co2_level = -1`. -/
def rx_init : RxState := ⟨1, 0, 0, .None, -1⟩

/-- Feed a list of bytes through `rx_packet`, collecting the return value
of every call. -/
def rx_run (s : RxState) : List Nat → RxState × List PacketType
  | [] => (s, [])
  | c :: rest =>
    let p := rx_packet s c
    let r := rx_run p.1 rest
    (r.1, p.2 :: r.2)

/-- The fixed frame written by `request_co2_level`. -/
def request_co2_level : List Nat := [0xff, 0x01, 0x86, 0x00, 0x00, 0x00, 0x00, 0x00, 0x79]

/-- The fixed frame written by `abc_off`. -/
def abc_off : List Nat := [0xff, 0x01, 0x79, 0x00, 0x00, 0x00, 0x00, 0x00, 0x86]

/-- `set_range`: `none` models the `-1` return with no bytes written;
`some buf` models the single 9-byte write.  `buf[3] = range/256`,
`buf[4] = range%256`, `buf[8] = (0xff - (sum of buf[1..7] & 0xff) + 1) & 0xff`
as in the source. -/
def set_range (range : Int) : Option (List Nat) :=
  if range ≠ 2000 ∧ range ≠ 5000 ∧ range ≠ 10000 then none
  else
    let b3 : Nat := (range.toNat / 256) % 256
    let b4 : Nat := (range.toNat % 256) % 256
    let b8 : Nat := (0xff - ((0x01 + 0x99 + b3 + b4 + 0x00 + 0x00 + 0x00) % 256) + 1) % 256
    some [0xff, 0x01, 0x99, b3, b4, 0x00, 0x00, 0x00, b8]

/-- State of the steady-state loop's cadence concern: the `ref_time`
variable and the number of `request_co2_level` writes so far. -/
structure LoopState where
  ref_time : Int
  requests : Nat
deriving DecidableEq, Repr

/-- One iteration of the cadence branch of the steady-state loop:
`if (cur_time - ref_time > 10) { request_co2_level(fd); ref_time += 10; }`. -/
def loop_step (s : LoopState) (cur_time : Int) : LoopState :=
  if 10 < cur_time - s.ref_time then
    { ref_time := s.ref_time + 10, requests := s.requests + 1 }
  else s

/-- The steady-state loop run over the sequence of `time(NULL)` values
observed at its iterations, starting from `ref_time = ref0`. -/
def run_loop (ref0 : Int) (times : List Int) : LoopState :=
  times.foldl loop_step { ref_time := ref0, requests := 0 }

/-- The steady-state loop's receive branch: pump the decoder once per
iteration and record `co2_level` whenever the pump returns `CO2Level`
(the `printf("%d\n",co2_level)` call). -/
def run_prints (s : RxState) : List Nat → RxState × List Int
  | [] => (s, [])
  | c :: rest =>
    let p := rx_packet s c
    let r := run_prints p.1 rest
    (r.1, (if p.2 = .CO2Level then [p.1.co2_level] else []) ++ r.2)

/-- One handshake wait of `main`: iterate over (condition-check time,
pump result) observations; while `time(NULL) - ref_time < 2` pump, break
on the expected packet.  `some true` is the timed-out exit, `some false`
the acknowledged break; `none` means the observation list ran out before
the loop resolved (a model artifact, never used by the theorems). -/
def hs_loop (ref_time : Int) (expected : PacketType) :
    List (Int × PacketType) → Option Bool
  | [] => none
  | (t, p) :: rest =>
    if t - ref_time < 2 then
      if p = expected then some false else hs_loop ref_time expected rest
    else some true

/-- Diagnostic line printed when the ABC-off handshake times out. -/
def abc_timeout_msg : String :=
  "Error initialising sensor - did not receive response from \x27ABC off\x27 command\n"

/-- Diagnostic line printed when the set-range handshake times out. -/
def range_timeout_msg : String :=
  "Error initialising sensor - did not receive response from \x27Set range\x27 command\n"

/-- The initialization portion of `main`: write `abc_off`, wait for
`ABCOff` with deadline anchored at `ref1`; then write `set_range 10000`
and wait for `SetRange` anchored at `ref2`.  Returns the list of frames
written and either `.ok` or the diagnostic message paired with the exit
status. -/
def sensor_init (ref1 : Int) (obs1 : List (Int × PacketType))
    (ref2 : Int) (obs2 : List (Int × PacketType)) :
    Option (List (List Nat) × Except (String × Int) Unit) :=
  match hs_loop ref1 .ABCOff obs1 with
  | none => none
  | some true => some ([abc_off], .error (abc_timeout_msg, 1))
  | some false =>
    let writes := [abc_off] ++ (match set_range 10000 with
                                | some l => [l]
                                | none => [])
    match hs_loop ref2 .SetRange obs2 with
    | none => none
    | some true => some (writes, .error (range_timeout_msg, 1))
    | some false => some (writes, .ok ())

/-- A valid received frame: nine bytes, leading 0xff sentinel, byte-sum
congruent to 0xff mod 256. -/
def ValidFrame (F : List Nat) : Prop :=
  F.length = 9 ∧ F.head? = some 0xff ∧ F.sum % 256 = 0xff ∧ ∀ b ∈ F, b < 256

instance (F : List Nat) : Decidable (ValidFrame F) := by
  unfold ValidFrame; infer_instance

/-- The frame of scenario S3: a CO2Level-coded frame whose checksum byte
is wrong (sum of bytes mod 256 is 42, not 0xff). -/
def corrupt_frame : List Nat := [0xff, 0x86, 0x01, 0xa4, 0x00, 0x00, 0x00, 0x00, 0x00]

/-- Characterization of the `co2_level` field across one `rx_packet` call:
it changes exactly in state 4 of a `CO2Level`-classified frame, where it
becomes `256*byte3 + c`. -/
theorem rx_packet_co2 (s : RxState) (b : Nat) :
    (rx_packet s b).1.co2_level =
      if s.rxstate = 4 ∧ s.packet = .CO2Level then ((256 * s.byte3 + b : Nat) : Int)
      else s.co2_level := by
  obtain ⟨r, cs, b3, pk, co2⟩ := s
  by_cases h1 : r = 1
  · subst h1
    by_cases hb : b = 0xff <;> simp [rx_packet, hb]
  by_cases h2 : r = 2
  · subst h2; simp [rx_packet]
  by_cases h3 : r = 3
  · subst h3; simp [rx_packet]
  by_cases h4 : r = 4
  · subst h4
    by_cases hp : pk = .CO2Level <;> simp [rx_packet, hp]
  by_cases h5 : r = 5
  · subst h5; simp [rx_packet]
  by_cases h6 : r = 6
  · subst h6; simp [rx_packet]
  by_cases h7 : r = 7
  · subst h7; simp [rx_packet]
  by_cases h8 : r = 8
  · subst h8; simp [rx_packet]
  by_cases h9 : r = 9
  · subst h9; simp [rx_packet]
  simp [rx_packet, h1, h2, h3, h4, h5, h6, h7, h8, h9]

/-- C6: feeding FF 86 01 A4 00 00 00 00 D5 to a decoder in state 1 returns
`None` on the first eight calls, `CO2Level` on the call consuming the ninth
byte, and leaves the measurement at 420. -/
theorem C6_co2_reading_420 (s : RxState) (h : s.rxstate = 1) :
    (rx_run s [0xff, 0x86, 0x01, 0xa4, 0x00, 0x00, 0x00, 0x00, 0xd5]).2 =
      [.None, .None, .None, .None, .None, .None, .None, .None, .CO2Level] ∧
    (rx_run s [0xff, 0x86, 0x01, 0xa4, 0x00, 0x00, 0x00, 0x00, 0xd5]).1.co2_level = 420 := by
  obtain ⟨r, cs, b3, pk, co2⟩ := s
  simp only at h
  subst h
  simp [rx_run, rx_packet, classify]

/-- C6, witnessed at the program's initial decoder state. -/
theorem C6_witness :
    (rx_run rx_init [0xff, 0x86, 0x01, 0xa4, 0x00, 0x00, 0x00, 0x00, 0xd5]).2 =
      [.None, .None, .None, .None, .None, .None, .None, .None, .CO2Level] ∧
    (rx_run rx_init [0xff, 0x86, 0x01, 0xa4, 0x00, 0x00, 0x00, 0x00, 0xd5]).1.co2_level = 420 :=
  C6_co2_reading_420 rx_init rfl

/-- C5: every outbound frame the codec can produce sums to 0xff mod 256,
and each one is accepted by the receive side (feeding it to a fresh decoder
yields exactly one classified return). -/
theorem C5_checksum_roundtrip :
    request_co2_level.sum % 256 = 0xff ∧
    abc_off.sum % 256 = 0xff ∧
    (set_range 2000).map (fun l => l.sum % 256) = some 0xff ∧
    (set_range 5000).map (fun l => l.sum % 256) = some 0xff ∧
    (set_range 10000).map (fun l => l.sum % 256) = some 0xff ∧
    ValidFrame request_co2_level ∧
    ValidFrame abc_off ∧
    (rx_run rx_init request_co2_level).2.countP (fun p => p ≠ PacketType.None) = 1 ∧
    (rx_run rx_init abc_off).2.countP (fun p => p ≠ PacketType.None) = 1 ∧
    (set_range 2000).map (fun l => (rx_run rx_init l).2.countP (fun p => p ≠ PacketType.None)) = some 1 ∧
    (set_range 5000).map (fun l => (rx_run rx_init l).2.countP (fun p => p ≠ PacketType.None)) = some 1 ∧
    (set_range 10000).map (fun l => (rx_run rx_init l).2.countP (fun p => p ≠ PacketType.None)) = some 1 := by
  decide

/-- C4: `set_range r` writes nothing and fails for r outside
{2000, 5000, 10000}; for the three allowed values it writes exactly the
nine bytes FF 01 99 HH LL 00 00 00 CK with HH = r >> 8, LL = r and 0xff,
and CK the two's-complement negation mod 256 of the sum of bytes 1..7. -/
theorem C4_set_range (r : Int) :
    (¬(r = 2000 ∨ r = 5000 ∨ r = 10000) → set_range r = none) ∧
    ((r = 2000 ∨ r = 5000 ∨ r = 10000) →
      set_range r = some [0xff, 0x01, 0x99, r.toNat >>> 8, r.toNat &&& 0xff,
        0x00, 0x00, 0x00,
        (256 - (0x01 + 0x99 + (r.toNat >>> 8) + (r.toNat &&& 0xff)) % 256) % 256]) := by
  constructor
  · intro h
    push_neg at h
    simp [set_range, h.1, h.2.1, h.2.2]
  · rintro (rfl | rfl | rfl) <;> decide

/-- C4, witnessed at the rejected input 3000 and the accepted input 2000. -/
theorem C4_witness :
    set_range 3000 = none ∧
    set_range 2000 = some [0xff, 0x01, 0x99, (2000 : Int).toNat >>> 8,
      (2000 : Int).toNat &&& 0xff, 0x00, 0x00, 0x00,
      (256 - (0x01 + 0x99 + ((2000 : Int).toNat >>> 8) + ((2000 : Int).toNat &&& 0xff)) % 256) % 256] :=
  ⟨(C4_set_range 3000).1 (by decide), (C4_set_range 2000).2 (Or.inl rfl)⟩

/-- C1 as stated is false on the code: the corrupt frame of S3 makes the
decoder return `None` on every call, yet the measurement, previously the
initial -1, is overwritten to 420 in state 4 before checksum validation. -/
theorem C1_counterexample :
    (rx_run rx_init corrupt_frame).2 = List.replicate 9 PacketType.None ∧
    rx_init.co2_level = -1 ∧
    (rx_run rx_init corrupt_frame).1.co2_level = 420 ∧
    (420 : Int) ≠ -1 := by
  decide

/-- C1 amended: the measurement changes only while processing the byte
consumed in state 4 of a frame classified `CO2Level`, where it becomes
256*byte3 + byte — before checksum validation; feeding the corrupt frame
FF 86 01 A4 00 00 00 00 00 returns `None` on every call but leaves the
measurement at 420. -/
theorem C1_measurement_update :
    (∀ (s : RxState) (b : Nat), (rx_packet s b).1.co2_level ≠ s.co2_level →
      s.rxstate = 4 ∧ s.packet = .CO2Level ∧
      (rx_packet s b).1.co2_level = ((256 * s.byte3 + b : Nat) : Int)) ∧
    (rx_run rx_init corrupt_frame).2 = List.replicate 9 PacketType.None ∧
    (rx_run rx_init corrupt_frame).1.co2_level = 420 := by
  refine ⟨?_, by decide, by decide⟩
  intro s b h
  rw [rx_packet_co2] at h
  by_cases hc : s.rxstate = 4 ∧ s.packet = .CO2Level
  · exact ⟨hc.1, hc.2, by rw [rx_packet_co2, if_pos hc]⟩
  · rw [if_neg hc] at h
    exact absurd rfl h

/-- The classification switch never produces the `None` sentinel. -/
theorem classify_ne_none (x : Nat) : classify x ≠ .None := by
  unfold classify
  split_ifs <;> simp

/-- `rx_packet` on a state-1 decoder and the 0xff sentinel. -/
theorem rxp_state1_ff (cs b3 : Nat) (pk : PacketType) (co2 : Int) :
    rx_packet ⟨1, cs, b3, pk, co2⟩ 0xff = (⟨2, 0xff, b3, pk, co2⟩, .None) := by
  simp [rx_packet]

/-- `rx_packet` on a state-1 decoder and a non-0xff byte. -/
theorem rxp_state1_other (cs b3 : Nat) (pk : PacketType) (co2 : Int) (c : Nat)
    (hc : c ≠ 0xff) :
    rx_packet ⟨1, cs, b3, pk, co2⟩ c = (⟨1, (cs + c) % 256, b3, pk, co2⟩, .None) := by
  simp [rx_packet, hc]

/-- `rx_packet` in state 2 latches the classification of the command byte. -/
theorem rxp_state2 (cs b3 : Nat) (pk : PacketType) (co2 : Int) (c : Nat) :
    rx_packet ⟨2, cs, b3, pk, co2⟩ c = (⟨3, (cs + c) % 256, b3, classify c, co2⟩, .None) := by
  simp [rx_packet]

/-- `rx_packet` in state 3 latches `byte3`. -/
theorem rxp_state3 (cs b3 : Nat) (pk : PacketType) (co2 : Int) (c : Nat) :
    rx_packet ⟨3, cs, b3, pk, co2⟩ c = (⟨4, (cs + c) % 256, c, pk, co2⟩, .None) := by
  simp [rx_packet]

/-- `rx_packet` in state 4 commits the measurement of a `CO2Level` frame. -/
theorem rxp_state4 (cs b3 : Nat) (pk : PacketType) (co2 : Int) (c : Nat) :
    rx_packet ⟨4, cs, b3, pk, co2⟩ c =
      (⟨5, (cs + c) % 256, b3, pk,
        if pk = .CO2Level then ((256 * b3 + c : Nat) : Int) else co2⟩, .None) := by
  simp [rx_packet]

/-- `rx_packet` in state 5 only advances and accumulates. -/
theorem rxp_state5 (cs b3 : Nat) (pk : PacketType) (co2 : Int) (c : Nat) :
    rx_packet ⟨5, cs, b3, pk, co2⟩ c = (⟨6, (cs + c) % 256, b3, pk, co2⟩, .None) := by
  simp [rx_packet]

/-- `rx_packet` in state 6 only advances and accumulates. -/
theorem rxp_state6 (cs b3 : Nat) (pk : PacketType) (co2 : Int) (c : Nat) :
    rx_packet ⟨6, cs, b3, pk, co2⟩ c = (⟨7, (cs + c) % 256, b3, pk, co2⟩, .None) := by
  simp [rx_packet]

/-- `rx_packet` in state 7 only advances and accumulates. -/
theorem rxp_state7 (cs b3 : Nat) (pk : PacketType) (co2 : Int) (c : Nat) :
    rx_packet ⟨7, cs, b3, pk, co2⟩ c = (⟨8, (cs + c) % 256, b3, pk, co2⟩, .None) := by
  simp [rx_packet]

/-- `rx_packet` in state 8 only advances and accumulates. -/
theorem rxp_state8 (cs b3 : Nat) (pk : PacketType) (co2 : Int) (c : Nat) :
    rx_packet ⟨8, cs, b3, pk, co2⟩ c = (⟨9, (cs + c) % 256, b3, pk, co2⟩, .None) := by
  simp [rx_packet]

/-- `rx_packet` in state 9 validates the accumulated checksum and resets. -/
theorem rxp_state9 (cs b3 : Nat) (pk : PacketType) (co2 : Int) (c : Nat) :
    rx_packet ⟨9, cs, b3, pk, co2⟩ c =
      (⟨1, (cs + c) % 256, b3, pk, co2⟩,
       if (cs + c) % 256 = 0xff then pk else .None) := by
  simp [rx_packet]

/-- `rx_packet` in the unreachable default states only accumulates. -/
theorem rxp_default (r cs b3 : Nat) (pk : PacketType) (co2 : Int) (c : Nat)
    (h1 : r ≠ 1) (h2 : r ≠ 2) (h3 : r ≠ 3) (h4 : r ≠ 4) (h5 : r ≠ 5)
    (h6 : r ≠ 6) (h7 : r ≠ 7) (h8 : r ≠ 8) (h9 : r ≠ 9) :
    rx_packet ⟨r, cs, b3, pk, co2⟩ c = (⟨r, (cs + c) % 256, b3, pk, co2⟩, .None) := by
  simp [rx_packet, h1, h2, h3, h4, h5, h6, h7, h8, h9]

/-- The return value of one `rx_packet` call: the latched packet exactly
when the ninth byte of a frame arrives and the accumulated checksum is
0xff, and the `None` sentinel otherwise. -/
theorem rx_packet_out (s : RxState) (b : Nat) :
    (rx_packet s b).2 =
      if s.rxstate = 9 ∧ (s.checksum + b) % 256 = 0xff then s.packet
      else .None := by
  obtain ⟨r, cs, b3, pk, co2⟩ := s
  by_cases h1 : r = 1
  · subst h1
    by_cases hff : b = 0xff
    · subst hff; rw [rxp_state1_ff]; simp
    · rw [rxp_state1_other _ _ _ _ _ hff]; simp
  by_cases h2 : r = 2
  · subst h2; rw [rxp_state2]; simp
  by_cases h3 : r = 3
  · subst h3; rw [rxp_state3]; simp
  by_cases h4 : r = 4
  · subst h4; rw [rxp_state4]; simp
  by_cases h5 : r = 5
  · subst h5; rw [rxp_state5]; simp
  by_cases h6 : r = 6
  · subst h6; rw [rxp_state6]; simp
  by_cases h7 : r = 7
  · subst h7; rw [rxp_state7]; simp
  by_cases h8 : r = 8
  · subst h8; rw [rxp_state8]; simp
  by_cases h9 : r = 9
  · subst h9; rw [rxp_state9]; simp
  rw [rxp_default _ _ _ _ _ _ h1 h2 h3 h4 h5 h6 h7 h8 h9]
  simp [h9]

/-- One `rx_packet` call keeps the state variable within 1..9. -/
theorem rx_packet_state_bounds (s : RxState) (b : Nat)
    (hlo : 1 ≤ s.rxstate) (hhi : s.rxstate ≤ 9) :
    1 ≤ (rx_packet s b).1.rxstate ∧ (rx_packet s b).1.rxstate ≤ 9 := by
  obtain ⟨r, cs, b3, pk, co2⟩ := s
  simp only at hlo hhi
  by_cases h1 : r = 1
  · subst h1
    by_cases hff : b = 0xff
    · subst hff; rw [rxp_state1_ff]; exact ⟨by simp, by simp⟩
    · rw [rxp_state1_other _ _ _ _ _ hff]; exact ⟨by simp, by simp⟩
  by_cases h2 : r = 2
  · subst h2; rw [rxp_state2]; exact ⟨by simp, by simp⟩
  by_cases h3 : r = 3
  · subst h3; rw [rxp_state3]; exact ⟨by simp, by simp⟩
  by_cases h4 : r = 4
  · subst h4; rw [rxp_state4]; exact ⟨by simp, by simp⟩
  by_cases h5 : r = 5
  · subst h5; rw [rxp_state5]; exact ⟨by simp, by simp⟩
  by_cases h6 : r = 6
  · subst h6; rw [rxp_state6]; exact ⟨by simp, by simp⟩
  by_cases h7 : r = 7
  · subst h7; rw [rxp_state7]; exact ⟨by simp, by simp⟩
  by_cases h8 : r = 8
  · subst h8; rw [rxp_state8]; exact ⟨by simp, by simp⟩
  by_cases h9 : r = 9
  · subst h9; rw [rxp_state9]; exact ⟨by simp, by simp⟩
  omega

/-- Symbolic run of a complete 9-byte frame with leading 0xff from any
state-1 decoder state: the command byte is the frame's second byte, the
latched `byte3` its third, the measurement bytes its third and fourth, and
the final output tests the whole frame's byte-sum against 0xff. -/
theorem rx_run_frame (s : RxState) (hs : s.rxstate = 1) (b c d e f g h i : Nat) :
    rx_run s [0xff, b, c, d, e, f, g, h, i] =
      (⟨1, (0xff + b + c + d + e + f + g + h + i) % 256, c, classify b,
        if classify b = .CO2Level then ((256 * c + d : Nat) : Int) else s.co2_level⟩,
       [.None, .None, .None, .None, .None, .None, .None, .None,
        if (0xff + b + c + d + e + f + g + h + i) % 256 = 0xff then classify b
        else .None]) := by
  obtain ⟨r, cs, b3, pk, co2⟩ := s
  simp only at hs
  subst hs
  simp only [rx_run, rxp_state1_ff, rxp_state2, rxp_state3, rxp_state4,
    rxp_state5, rxp_state6, rxp_state7, rxp_state8, rxp_state9, Nat.mod_add_mod]

/-- `rx_run` distributes over list concatenation. -/
theorem rx_run_append (s : RxState) (l1 l2 : List Nat) :
    rx_run s (l1 ++ l2) =
      ((rx_run (rx_run s l1).1 l2).1,
       (rx_run s l1).2 ++ (rx_run (rx_run s l1).1 l2).2) := by
  induction l1 generalizing s with
  | nil => simp [rx_run]
  | cons a l ih => simp [rx_run, ih]

/-- Bytes other than 0xff consumed in state 1 only pollute the checksum
accumulator: state stays 1, every call returns `None`, and the latched
fields are untouched. -/
theorem rx_run_garbage (G : List Nat) : ∀ s : RxState, s.rxstate = 1 →
    (∀ b ∈ G, b ≠ 0xff) →
    ∃ x, rx_run s G = ({ s with checksum := x }, List.replicate G.length .None) := by
  induction G with
  | nil =>
    intro s _ _
    exact ⟨s.checksum, rfl⟩
  | cons a G ih =>
    intro s hs hG
    have ha : a ≠ 0xff := hG a (by simp)
    have hstep : rx_packet s a = ({ s with checksum := (s.checksum + a) % 256 }, .None) := by
      obtain ⟨r, cs, b3, pk, co2⟩ := s
      simp only at hs
      subst hs
      simp [rx_packet, ha]
    obtain ⟨x, hx⟩ := ih { s with checksum := (s.checksum + a) % 256 } hs
      (fun b hb => hG b (by simp [hb]))
    exact ⟨x, by simp [rx_run, hstep, hx, List.replicate]⟩

/-- Feeding a byte list that starts with the 0xff sentinel from state 1
does not depend on the polluted checksum accumulator: the first step
resets it. -/
theorem rx_run_reset (s : RxState) (x : Nat) (hs : s.rxstate = 1) (rest : List Nat) :
    rx_run { s with checksum := x } (0xff :: rest) = rx_run s (0xff :: rest) := by
  obtain ⟨r, cs, b3, pk, co2⟩ := s
  simp only at hs
  subst hs
  simp [rx_run, rx_packet]

/-- A frame whose byte at index 2 (counting from 0 at the sentinel) is
0x86 but whose byte at index 1 is 0x00; its checksum is valid. -/
def byte2_frame : List Nat := [0xff, 0x00, 0x86, 0x00, 0x00, 0x00, 0x00, 0x00, 0x7a]

/-- C2 as stated is false on the code: the decoder classifies by byte 1,
not byte 2.  `byte2_frame` carries 0x86 at index 2 and passes the
checksum, yet is classified `Other`, not `CO2Level`; and the S2 frame
FF 86 01 A4 ... yields measurement 420 = (byte2 << 8) | byte3, not
(byte3 << 8) | byte4 = 41984. -/
theorem C2_counterexample :
    ValidFrame byte2_frame ∧
    byte2_frame[2]? = some 0x86 ∧
    (rx_run rx_init byte2_frame).2.getLast? = some PacketType.Other ∧
    PacketType.Other ≠ PacketType.CO2Level ∧
    (rx_run rx_init [0xff, 0x86, 0x01, 0xa4, 0x00, 0x00, 0x00, 0x00, 0xd5]).1.co2_level = 420 ∧
    (420 : Int) ≠ 256 * 0xa4 + 0x00 := by
  decide

/-- C2 amended: the packet kind is derived from byte 1 of the received
frame (0x86 -> CO2Level, 0x79 -> ABCOff, 0x99 -> SetRange, otherwise
Other), and the measurement of a CO2Level frame is (byte2 << 8) | byte3,
indices counting from 0 at the 0xff sentinel. -/
theorem C2_frame_decoding :
    (classify 0x86 = .CO2Level ∧ classify 0x79 = .ABCOff ∧ classify 0x99 = .SetRange ∧
      ∀ x : Nat, x ≠ 0x86 → x ≠ 0x79 → x ≠ 0x99 → classify x = .Other) ∧
    (∀ (s : RxState) (b c d e f g h i : Nat), s.rxstate = 1 →
      (rx_run s [0xff, b, c, d, e, f, g, h, i]).1.packet = classify b ∧
      ((0xff + b + c + d + e + f + g + h + i) % 256 = 0xff →
        (rx_run s [0xff, b, c, d, e, f, g, h, i]).2.getLast? = some (classify b)) ∧
      (classify b = .CO2Level →
        (rx_run s [0xff, b, c, d, e, f, g, h, i]).1.co2_level =
          ((256 * c + d : Nat) : Int))) := by
  constructor
  · refine ⟨by decide, by decide, by decide, ?_⟩
    intro x hx1 hx2 hx3
    simp [classify, hx1, hx2, hx3]
  · intro s b c d e f g h i hs
    rw [rx_run_frame s hs]
    refine ⟨rfl, ?_, ?_⟩
    · intro hsum
      simp [hsum]
    · intro hb
      simp [hb]

/-- C2 amended, witnessed on the S2 frame. -/
theorem C2_witness :
    (rx_run rx_init [0xff, 0x86, 0x01, 0xa4, 0x00, 0x00, 0x00, 0x00, 0xd5]).2.getLast? =
      some (classify 0x86) :=
  (C2_frame_decoding.2 rx_init 0x86 0x01 0xa4 0x00 0x00 0x00 0x00 0xd5 rfl).2.1 (by decide)

/-- C7: garbage bytes containing no 0xff before a valid frame do not
change what the decoder produces: the final state equals that of feeding
the frame alone, the outputs are `None` for each garbage byte followed by
the frame's outputs, the frame yields exactly one classified return, and
every prefix of the garbage leaves the machine in state 1 with no partial
frame latched. -/
theorem C7_prefix_garbage (s : RxState) (G F : List Nat) (hs : s.rxstate = 1)
    (hG : ∀ b ∈ G, b ≠ 0xff) (hF : ValidFrame F) :
    (rx_run s (G ++ F)).1 = (rx_run s F).1 ∧
    (rx_run s (G ++ F)).2 = List.replicate G.length .None ++ (rx_run s F).2 ∧
    (rx_run s F).2.countP (fun p => p ≠ PacketType.None) = 1 ∧
    (∀ pre, pre <+: G →
      (rx_run s pre).1.rxstate = 1 ∧ (rx_run s pre).1.byte3 = s.byte3 ∧
      (rx_run s pre).1.packet = s.packet ∧
      (rx_run s pre).1.co2_level = s.co2_level) := by
  obtain ⟨hlen, hhead, hsum, -⟩ := hF
  obtain ⟨f0, F, rfl⟩ : ∃ f0 F2, F = f0 :: F2 := by
    cases F with
    | nil => simp at hlen
    | cons a l => exact ⟨a, l, rfl⟩
  have hf0 : f0 = 0xff := by simpa using hhead
  subst hf0
  obtain ⟨x, hgar⟩ := rx_run_garbage G s hs hG
  have hG_run : ∀ pre, pre <+: G →
      (rx_run s pre).1.rxstate = 1 ∧ (rx_run s pre).1.byte3 = s.byte3 ∧
      (rx_run s pre).1.packet = s.packet ∧
      (rx_run s pre).1.co2_level = s.co2_level := by
    intro pre hpre
    obtain ⟨y, hy⟩ := rx_run_garbage pre s hs (fun b hb => hG b (hpre.subset hb))
    rw [hy]
    exact ⟨hs, rfl, rfl, rfl⟩
  have hfix : rx_run (rx_run s G).1 (0xff :: F) = rx_run s (0xff :: F) := by
    rw [hgar]
    exact rx_run_reset s x hs F
  refine ⟨?_, ?_, ?_, hG_run⟩
  · rw [rx_run_append, hfix]
  · rw [rx_run_append, hfix, hgar]
  · rcases F with _ | ⟨b, _ | ⟨c, _ | ⟨d, _ | ⟨e, _ | ⟨f, _ | ⟨g, _ | ⟨h, _ | ⟨i, _ | ⟨j, F⟩⟩⟩⟩⟩⟩⟩⟩⟩ <;>
      simp only [List.length] at hlen <;> try omega
    have hsum2 : (0xff + b + c + d + e + f + g + h + i) % 256 = 0xff := by
      simp only [List.sum_cons, List.sum_nil] at hsum
      omega
    rw [rx_run_frame s hs, if_pos hsum2]
    simp [List.countP_cons, classify_ne_none b]

/-- C7, witnessed on two garbage bytes before a valid ABCOff frame. -/
theorem C7_witness :
    (rx_run rx_init ([0x12, 0x34] ++ [0xff, 0x79, 0x01, 0x00, 0x00, 0x00, 0x00, 0x00, 0x86])).1 =
      (rx_run rx_init [0xff, 0x79, 0x01, 0x00, 0x00, 0x00, 0x00, 0x00, 0x86]).1 :=
  (C7_prefix_garbage rx_init [0x12, 0x34]
    [0xff, 0x79, 0x01, 0x00, 0x00, 0x00, 0x00, 0x00, 0x86]
    rfl (by decide) (by decide)).1

/-- C9: from the initial state the decoder's state variable stays in
{1..9} under every input sequence; a call returns non-`None` only in
state 9 with accumulated checksum 0xff; and processing the ninth byte
resets the state to 1 whether or not the checksum check passed. -/
theorem C9_receiver_invariant :
    (∀ l : List Nat,
      1 ≤ (rx_run rx_init l).1.rxstate ∧ (rx_run rx_init l).1.rxstate ≤ 9) ∧
    (∀ (s : RxState) (b : Nat), (rx_packet s b).2 ≠ .None →
      s.rxstate = 9 ∧ (s.checksum + b) % 256 = 0xff) ∧
    (∀ (s : RxState) (b : Nat), s.rxstate = 9 → (rx_packet s b).1.rxstate = 1) := by
  refine ⟨?_, ?_, ?_⟩
  · have key : ∀ (l : List Nat) (s : RxState), 1 ≤ s.rxstate → s.rxstate ≤ 9 →
        1 ≤ (rx_run s l).1.rxstate ∧ (rx_run s l).1.rxstate ≤ 9 := by
      intro l
      induction l with
      | nil => intro s hs1 hs9; exact ⟨hs1, hs9⟩
      | cons a l ih =>
        intro s hs1 hs9
        have hb := rx_packet_state_bounds s a hs1 hs9
        have := ih (rx_packet s a).1 hb.1 hb.2
        simpa [rx_run] using this
    intro l
    exact key l rx_init (by decide) (by decide)
  · intro s b h
    rw [rx_packet_out] at h
    by_cases hc : s.rxstate = 9 ∧ (s.checksum + b) % 256 = 0xff
    · exact hc
    · rw [if_neg hc] at h
      exact absurd rfl h
  · intro s b h9
    obtain ⟨r, cs, b3, pk, co2⟩ := s
    simp only at h9
    subst h9
    rw [rxp_state9]

/-- C9, witnessed at a state-9 decoder state that returns a packet and at
a state-9 state whose checksum fails. -/
theorem C9_witness :
    ((⟨9, 42, 0, .Other, -1⟩ : RxState).rxstate = 9 ∧
      ((⟨9, 42, 0, .Other, -1⟩ : RxState).checksum + 213) % 256 = 0xff) ∧
    (rx_packet ⟨9, 7, 0, .None, -1⟩ 0).1.rxstate = 1 :=
  ⟨C9_receiver_invariant.2.1 ⟨9, 42, 0, .Other, -1⟩ 213 (by decide),
   C9_receiver_invariant.2.2 ⟨9, 7, 0, .None, -1⟩ 0 rfl⟩

/-- C1 amended, witnessed at a state-4 `CO2Level` decoder state where the
measurement does change. -/
theorem C1_witness :
    (⟨4, 0, 1, .CO2Level, -1⟩ : RxState).rxstate = 4 ∧
    (⟨4, 0, 1, .CO2Level, -1⟩ : RxState).packet = .CO2Level ∧
    (rx_packet ⟨4, 0, 1, .CO2Level, -1⟩ 164).1.co2_level =
      ((256 * (⟨4, 0, 1, .CO2Level, -1⟩ : RxState).byte3 + 164 : Nat) : Int) :=
  C1_measurement_update.1 ⟨4, 0, 1, .CO2Level, -1⟩ 164 (by decide)

/-- Invariant carried by the decoder state: the latched high byte is a
byte, and from state 5 onward a `CO2Level`-classified frame has already
committed a measurement in 0..65535. -/
def RxInv (s : RxState) : Prop :=
  s.byte3 < 256 ∧
  (s.packet = .CO2Level → 5 ≤ s.rxstate → s.rxstate ≤ 9 →
    0 ≤ s.co2_level ∧ s.co2_level ≤ 65535)

/-- One `rx_packet` call on a byte preserves `RxInv`. -/
theorem rx_packet_inv (s : RxState) (b : Nat) (hb : b < 256) (h : RxInv s) :
    RxInv (rx_packet s b).1 := by
  obtain ⟨r, cs, b3, pk, co2⟩ := s
  unfold RxInv at h ⊢
  simp only at h
  by_cases h1 : r = 1
  · subst h1
    by_cases hff : b = 0xff
    · subst hff; rw [rxp_state1_ff]
      exact ⟨h.1, fun _ h5 _ => absurd h5 (by simp)⟩
    · rw [rxp_state1_other _ _ _ _ _ hff]
      exact ⟨h.1, fun _ h5 _ => absurd h5 (by simp)⟩
  by_cases h2 : r = 2
  · subst h2; rw [rxp_state2]
    exact ⟨h.1, fun _ h5 _ => absurd h5 (by simp)⟩
  by_cases h3 : r = 3
  · subst h3; rw [rxp_state3]
    exact ⟨hb, fun _ h5 _ => absurd h5 (by simp)⟩
  by_cases h4 : r = 4
  · subst h4; rw [rxp_state4]
    refine ⟨h.1, fun hpk _ _ => ?_⟩
    simp only at hpk ⊢
    rw [if_pos hpk]
    have hb3 := h.1
    omega
  by_cases h5 : r = 5
  · subst h5; rw [rxp_state5]
    exact ⟨h.1, fun hpk _ _ => h.2 hpk (by simp) (by simp)⟩
  by_cases h6 : r = 6
  · subst h6; rw [rxp_state6]
    exact ⟨h.1, fun hpk _ _ => h.2 hpk (by simp) (by simp)⟩
  by_cases h7 : r = 7
  · subst h7; rw [rxp_state7]
    exact ⟨h.1, fun hpk _ _ => h.2 hpk (by simp) (by simp)⟩
  by_cases h8 : r = 8
  · subst h8; rw [rxp_state8]
    exact ⟨h.1, fun hpk _ _ => h.2 hpk (by simp) (by simp)⟩
  by_cases h9 : r = 9
  · subst h9; rw [rxp_state9]
    exact ⟨h.1, fun _ h5 _ => absurd h5 (by simp)⟩
  rw [rxp_default _ _ _ _ _ _ h1 h2 h3 h4 h5 h6 h7 h8 h9]
  exact ⟨h.1, fun hpk hl hh => h.2 hpk hl hh⟩

/-- Whenever a call returns `CO2Level`, the measurement it exposes is in
0..65535 (given `RxInv`). -/
theorem rx_packet_print_range (s : RxState) (b : Nat) (h : RxInv s)
    (hout : (rx_packet s b).2 = .CO2Level) :
    0 ≤ (rx_packet s b).1.co2_level ∧ (rx_packet s b).1.co2_level ≤ 65535 := by
  have ho := rx_packet_out s b
  rw [hout] at ho
  by_cases hc : s.rxstate = 9 ∧ (s.checksum + b) % 256 = 0xff
  · obtain ⟨h9s, hcs⟩ := hc
    rw [if_pos ⟨h9s, hcs⟩] at ho
    have hpk : s.packet = .CO2Level := ho.symm
    have hco2 : (rx_packet s b).1.co2_level = s.co2_level := by
      rw [rx_packet_co2, if_neg]
      rintro ⟨h4, -⟩
      omega
    rw [hco2]
    exact h.2 hpk (by omega) (by omega)
  · rw [if_neg hc] at ho
    exact absurd ho (by decide)

/-- The printed values of any steady-state run from an `RxInv` state are
in 0..65535. -/
theorem run_prints_inv (l : List Nat) : ∀ s : RxState, RxInv s →
    (∀ b ∈ l, b < 256) →
    RxInv (run_prints s l).1 ∧ ∀ p ∈ (run_prints s l).2, 0 ≤ p ∧ p ≤ 65535 := by
  induction l with
  | nil =>
    intro s hs _
    exact ⟨hs, by simp [run_prints]⟩
  | cons a l ih =>
    intro s hs hb
    have hba : a < 256 := hb a (by simp)
    have hinv := rx_packet_inv s a hba hs
    obtain ⟨ih1, ih2⟩ := ih (rx_packet s a).1 hinv (fun x hx => hb x (by simp [hx]))
    refine ⟨by simpa [run_prints] using ih1, ?_⟩
    intro p hp
    simp only [run_prints, List.mem_append] at hp
    rcases hp with hp | hp
    · by_cases ho : (rx_packet s a).2 = .CO2Level
      · rw [if_pos ho] at hp
        simp only [List.mem_singleton] at hp
        subst hp
        exact rx_packet_print_range s a hs ho
      · rw [if_neg ho] at hp
        simp at hp
    · exact ih2 p hp

/-- C10: the measurement starts at the sentinel -1; the steady-state loop
prints only on a `CO2Level` return, the committed value being
256*byte3 + byte of the frame's data bytes; and every printed value lies
in 0..65535, so the sentinel -1 is never printed. -/
theorem C10_printed_range :
    rx_init.co2_level = -1 ∧
    (∀ l : List Nat, (∀ b ∈ l, b < 256) →
      ∀ p ∈ (run_prints rx_init l).2, 0 ≤ p ∧ p ≤ 65535 ∧ p ≠ -1) ∧
    (∀ (s : RxState) (b : Nat), s.rxstate = 4 → s.packet = .CO2Level →
      (rx_packet s b).1.co2_level = ((256 * s.byte3 + b : Nat) : Int)) := by
  refine ⟨rfl, ?_, ?_⟩
  · intro l hl p hp
    have hinit : RxInv rx_init := ⟨by decide, fun h => absurd h (by decide)⟩
    have := (run_prints_inv l rx_init hinit hl).2 p hp
    exact ⟨this.1, this.2, by omega⟩
  · intro s b h4 hpk
    rw [rx_packet_co2, if_pos ⟨h4, hpk⟩]

/-- C10, witnessed on the S2 frame, whose run prints exactly 420. -/
theorem C10_witness :
    0 ≤ (420 : Int) ∧ (420 : Int) ≤ 65535 ∧ (420 : Int) ≠ -1 :=
  C10_printed_range.2.1 [0xff, 0x86, 0x01, 0xa4, 0x00, 0x00, 0x00, 0x00, 0xd5]
    (by decide) 420 (by decide)

/-- Invariant of the cadence loop: after the last processed iteration at
time `t` (times move in steps of 0 or 1 from `t` on), the request count
is `(t - h - 1) / 10` and `ref_time` trails it by exactly `10 *` count. -/
theorem cadence_aux (ts : List Int) : ∀ t h : Int, h ≤ t →
    List.Chain' (fun a b => b = a ∨ b = a + 1) (t :: ts) →
    (ts.foldl loop_step
        ⟨h + 10 * ((t - h - 1).toNat / 10), (t - h - 1).toNat / 10⟩).requests
      = ((t :: ts).getLast (List.cons_ne_nil t ts) - h - 1).toNat / 10 := by
  induction ts with
  | nil =>
    intro t h ht _
    simp [List.getLast]
  | cons t2 rest ih =>
    intro t h ht hch
    rw [List.chain'_cons] at hch
    obtain ⟨hR, hch2⟩ := hch
    have ht2 : h ≤ t2 := by rcases hR with rfl | rfl <;> omega
    have hstep : loop_step ⟨h + 10 * ((t - h - 1).toNat / 10), (t - h - 1).toNat / 10⟩ t2 =
        ⟨h + 10 * ((t2 - h - 1).toNat / 10), (t2 - h - 1).toNat / 10⟩ := by
      unfold loop_step
      dsimp only
      rcases hR with rfl | rfl <;>
        split_ifs with hlt <;> simp only [LoopState.mk.injEq] <;> omega
    rw [List.foldl_cons, hstep, ih t2 h ht2 hch2]
    congr 1

/-- C3 amended: the steady-state loop emits a request exactly when the
observed time strictly exceeds `ref_time + 10`, afterwards advancing
`ref_time` by exactly 10 (not to "now"); consequently a run whose
iteration times walk (with arbitrary sub-second jitter) from the loop
entry time `h` to `h + E` emits exactly `(E - 1) / 10` requests —
`floor((T - h - 1)/10)`, not `floor((T - h)/10)`. -/
theorem C3_request_cadence :
    (∀ (s : LoopState) (cur : Int),
      (10 < cur - s.ref_time →
        loop_step s cur = ⟨s.ref_time + 10, s.requests + 1⟩) ∧
      (¬10 < cur - s.ref_time → loop_step s cur = s)) ∧
    (∀ (h : Int) (E : Nat) (ts : List Int),
      List.Chain' (fun a b => b = a ∨ b = a + 1) (h :: ts) →
      (h :: ts).getLast (List.cons_ne_nil h ts) = h + E →
      (run_loop h ts).requests = (E - 1) / 10) := by
  constructor
  · intro s cur
    constructor <;> intro hc <;> simp [loop_step, hc]
  · intro h E ts hch hlast
    have haux := cadence_aux ts h h le_rfl hch
    have hinit : (⟨h + 10 * ((h - h - 1).toNat / 10), (h - h - 1).toNat / 10⟩ : LoopState) =
        ⟨h, 0⟩ := by
      simp only [LoopState.mk.injEq]
      omega
    rw [hinit, hlast] at haux
    unfold run_loop
    rw [haux]
    omega

/-- C3 as stated is false on the code: a run entered at time 0 whose
iterations observe every second up to T = 10 emits zero requests, while
floor((T - h)/10) = 1. -/
theorem C3_counterexample :
    (run_loop 0 [0, 1, 2, 3, 4, 5, 6, 7, 8, 9, 10]).requests = 0 ∧
    ((10 : Nat) - 0) / 10 = 1 ∧
    (run_loop 0 [0, 1, 2, 3, 4, 5, 6, 7, 8, 9, 10]).requests ≠ ((10 : Nat) - 0) / 10 := by
  decide

/-- C3 amended, witnessed on a concrete jitter-free run of 11 seconds:
exactly one request. -/
theorem C3_witness :
    loop_step ⟨0, 0⟩ 11 = ⟨0 + 10, 0 + 1⟩ ∧
    (run_loop 0 [0, 1, 2, 3, 4, 5, 6, 7, 8, 9, 10, 11]).requests = (11 - 1) / 10 :=
  ⟨(C3_request_cadence.1 ⟨0, 0⟩ 11).1 (by decide),
   C3_request_cadence.2 0 11 [0, 1, 2, 3, 4, 5, 6, 7, 8, 9, 10, 11]
     (by norm_num [List.chain'_cons]) (by decide)⟩

/-- If every pump in the window yields `None` (and the awaited kind is a
real packet kind), the handshake loop exits timed out as soon as an
iteration sees the 2-second deadline passed. -/
theorem hs_loop_timeout (ref : Int) (exp : PacketType)
    (obs : List (Int × PacketType)) (hexp : exp ≠ .None)
    (hnone : ∀ x ∈ obs, x.2 = .None) (hdl : ∃ x ∈ obs, 2 ≤ x.1 - ref) :
    hs_loop ref exp obs = some true := by
  induction obs with
  | nil => simp at hdl
  | cons a rest ih =>
    obtain ⟨t, p⟩ := a
    simp only [hs_loop]
    by_cases hlt : t - ref < 2
    · rw [if_pos hlt]
      have hp : p = .None := hnone (t, p) (by simp)
      rw [if_neg (by rw [hp]; exact fun heq => hexp heq.symm)]
      apply ih (fun x hx => hnone x (by simp [hx]))
      obtain ⟨x, hx, hge⟩ := hdl
      rcases List.mem_cons.mp hx with rfl | hx2
      · simp only at hge
        omega
      · exact ⟨x, hx2, hge⟩
    · rw [if_neg hlt]

/-- C8: the controller writes `abc_off`, pumps for `ABCOff`, then writes
`set_range 10000` and pumps for `SetRange`, each wait bounded by the
2-second deadline.  If the first wait only ever sees `None` (a Link that
never returns bytes) until the deadline passes, initialization stops
after the single `abc_off` write with the diagnostic naming the ABC-off
step and exit status 1; if the first wait succeeds and the second times
out the same way, both frames have been written and the diagnostic names
the set-range step, again with exit status 1 ≠ 0. -/
theorem C8_handshake_timeout :
    (∀ (ref1 ref2 : Int) (obs1 obs2 : List (Int × PacketType)),
      (∀ x ∈ obs1, x.2 = .None) → (∃ x ∈ obs1, 2 ≤ x.1 - ref1) →
      sensor_init ref1 obs1 ref2 obs2 =
        some ([abc_off], .error (abc_timeout_msg, 1))) ∧
    (∀ (ref1 ref2 : Int) (obs1 obs2 : List (Int × PacketType)),
      hs_loop ref1 .ABCOff obs1 = some false →
      (∀ x ∈ obs2, x.2 = .None) → (∃ x ∈ obs2, 2 ≤ x.1 - ref2) →
      sensor_init ref1 obs1 ref2 obs2 =
        some ([abc_off, [0xff, 0x01, 0x99, 0x27, 0x10, 0x00, 0x00, 0x00, 0x2f]],
              .error (range_timeout_msg, 1))) ∧
    (1 : Int) ≠ 0 := by
  refine ⟨?_, ?_, by decide⟩
  · intro ref1 ref2 obs1 obs2 hnone hdl
    unfold sensor_init
    rw [hs_loop_timeout ref1 .ABCOff obs1 (by decide) hnone hdl]
  · intro ref1 ref2 obs1 obs2 hok hnone hdl
    unfold sensor_init
    rw [hok, hs_loop_timeout ref2 .SetRange obs2 (by decide) hnone hdl]
    rfl

/-- C8, witnessed with a Link that never returns a byte: the first
deadline check at time 2 already times out. -/
theorem C8_witness :
    sensor_init 0 [(2, .None)] 0 [] =
      some ([abc_off], .error (abc_timeout_msg, 1)) :=
  C8_handshake_timeout.1 0 0 [(2, .None)] [] (by decide) ⟨(2, .None), by decide, by decide⟩
